import Mathlib

/-!
Shallow embedding of the `radar-lend` collateralized lending programs.

Two program variants are embedded, each in its own namespace:

* `SolSavings` — `programs/sol-savings/src/lib.rs`, the multi-loan Anchor
  program (`withdraw_sol`, `deposit_sol_and_take_loan`, `repay_loan`).
* `UsdcSol` — `src/main_usdc_sol_collateral.rs`, the single-loan program
  (`repay_loan`, `liquidate_loan`).

Conventions used throughout:

* `u64` values are `Nat` with an explicit `2 ^ 64` bound at every checked
  operation; `i64` timestamps are `Int` with explicit range checks.
* Rust `checked_add / checked_sub / checked_mul / checked_div` become the
  `Option`-valued functions below.  Unchecked Rust arithmetic in the
  single-loan variant is modelled as aborting on overflow (the on-chain
  build has overflow checks enabled, so an overflow panics and aborts the
  transaction); `x as u64` on an `i64` is the two's-complement
  reinterpretation `i64_as_u64`.
* An instruction either commits all of its effects or aborts: every
  instruction is a function `State → ... → Except Err State`, and an
  `Except.error` outcome leaves the pre-state untouched by construction.
* Token and lamport movements performed through CPI are tracked as explicit
  balance fields of the state; an SPL transfer with an insufficient source
  balance aborts (modelled as `TransferFailed` / `TokenTransferFailed`).
  Lamports held by the user account are tracked as a plain `Nat`.
-/

def U64_MOD : Nat := 2 ^ 64

def I64_HALF : Nat := 2 ^ 63

/-- `u64::checked_add`. -/
def checked_add (a b : Nat) : Option Nat :=
  if a + b < U64_MOD then some (a + b) else none

/-- `u64::checked_sub`. -/
def checked_sub (a b : Nat) : Option Nat :=
  if b ≤ a then some (a - b) else none

/-- `u64::checked_mul`. -/
def checked_mul (a b : Nat) : Option Nat :=
  if a * b < U64_MOD then some (a * b) else none

/-- `u64::checked_div`: fails exactly on a zero divisor. -/
def checked_div (a b : Nat) : Option Nat :=
  if b = 0 then none else some (a / b)

/-- `i64::checked_sub`: fails exactly when the difference leaves the
`i64` range (a merely negative difference is fine). -/
def i64_checked_sub (a b : Int) : Option Int :=
  if -(I64_HALF : Int) ≤ a - b ∧ a - b < (I64_HALF : Int) then some (a - b) else none

/-- The Rust cast `x as u64` on an `i64` value: two's-complement
reinterpretation. -/
def i64_as_u64 (x : Int) : Nat := (x % (U64_MOD : Int)).toNat

namespace SolSavings

/-- `SECONDS_IN_A_YEAR` from `programs/sol-savings/src/lib.rs`. -/
def SECONDS_IN_A_YEAR : Nat := 31536000

/-- `MAX_LOANS_PER_USER` from `programs/sol-savings/src/lib.rs`. -/
def MAX_LOANS_PER_USER : Nat := 5

/-- The `Loan` account data (`programs/sol-savings/src/lib.rs`).
Pubkeys are modelled as `Nat` identifiers. -/
structure Loan where
  id : Nat
  start_date : Int
  principal : Nat
  apy : Nat
  collateral : Nat
  ltv : Nat
  borrower : Nat
deriving Repr, DecidableEq

/-- The `UserAccount` account data (`programs/sol-savings/src/lib.rs`). -/
structure UserAccount where
  owner : Nat
  sol_balance : Nat
  usdc_balance : Nat
  loan_count : Nat
  loans : List Loan
deriving Repr, DecidableEq

/-- The `ErrorCode` enum of the program, plus `TransferFailed` for a CPI
token/system transfer that aborts the transaction. -/
inductive ErrorCode where
  | InsufficientFunds
  | InsufficientCollateral
  | LoanNotFound
  | RepaymentAmountTooHigh
  | InvalidLTV
  | ArithmeticOverflow
  | MaxLoansReached
  | UnauthorizedAccess
  | TransferFailed
deriving Repr, DecidableEq

/-- On-chain state touched by the instructions: the `UserAccount` data, the
lamports held by that account, and the two USDC token-account balances. -/
structure ChainState where
  account : UserAccount
  account_lamports : Nat
  user_wallet_usdc : Nat
  contract_usdc : Nat
deriving Repr, DecidableEq

/-- `Vec::iter().position(pred)`. -/
def position (p : Loan → Bool) : List Loan → Option Nat
  | [] => none
  | l :: ls => if p l then some 0 else (position p ls).map (· + 1)

/-- Indexing `loans[i]`. -/
def get_at : List Loan → Nat → Option Loan
  | [], _ => none
  | l :: _, 0 => some l
  | _ :: ls, n + 1 => get_at ls n

/-- `Vec::remove(i)`. -/
def remove_at : List Loan → Nat → List Loan
  | [], _ => []
  | _ :: ls, 0 => ls
  | l :: ls, n + 1 => l :: remove_at ls n

/-- Writing `loans[i] = x`. -/
def set_at : List Loan → Nat → Loan → List Loan
  | [], _, _ => []
  | _ :: ls, 0, x => x :: ls
  | l :: ls, n + 1, x => l :: set_at ls n x

/-- Sum of the `collateral` fields of a loan list. -/
def sum_collateral : List Loan → Nat
  | [] => 0
  | l :: ls => l.collateral + sum_collateral ls

/-- `withdraw_sol` (lib.rs lines 26-45): requires `sol_balance ≥ amount`,
moves `amount` lamports out of the account, and decrements `sol_balance`
with a checked subtraction. -/
def withdraw_sol (st : ChainState) (amount : Nat) : Except ErrorCode ChainState :=
  if st.account.sol_balance ≥ amount then
    (match checked_sub st.account.sol_balance amount with
     | some b =>
         .ok { st with
               account := { st.account with sol_balance := b },
               account_lamports := st.account_lamports - amount }
     | none => .error .ArithmeticOverflow)
  else .error .InsufficientFunds

/-- The LTV table of `deposit_sol_and_take_loan` (lib.rs lines 105-111):
`ltv ↦ (ltv_rate, apy)`. -/
def ltv_table (ltv : Nat) : Option (Nat × Nat) :=
  if ltv = 20 then some (20, 0)
  else if ltv = 25 then some (25, 1)
  else if ltv = 33 then some (33, 5)
  else if ltv = 50 then some (50, 8)
  else none

/-- The collateral sizing chain of `deposit_sol_and_take_loan`
(lib.rs lines 114-120):
`usdc_amount.checked_mul(100)?.checked_div(ltv_rate)?.checked_mul(10000)?.checked_div(sol_price)?`.
Every failure of the chain is mapped to `ArithmeticOverflow` by the caller. -/
def required_collateral (usdc_amount ltv_rate sol_price : Nat) : Option Nat :=
  (checked_mul usdc_amount 100).bind fun a =>
  (checked_div a ltv_rate).bind fun b =>
  (checked_mul b 10000).bind fun c =>
  checked_div c sol_price

/-- `deposit_sol_and_take_loan` (lib.rs lines 70-171).  The Chainlink price
(`round.answer as u64`) is the `sol_price` parameter, `now` is
`Clock::get()?.unix_timestamp`.  The caller is the account owner (enforced
by the Anchor `has_one = owner` constraint together with the signer check),
so the new loan's `borrower` is `st.account.owner`.  The system transfer of
`sol_amount` lamports from the owner's wallet into the account is modelled
by crediting `account_lamports`. -/
def deposit_sol_and_take_loan (st : ChainState) (sol_amount usdc_amount ltv : Nat)
    (sol_price : Nat) (now : Int) : Except ErrorCode ChainState :=
  if st.account.loans.length < MAX_LOANS_PER_USER then
    (match checked_add st.account.sol_balance sol_amount with
    | none => .error .ArithmeticOverflow
    | some sb =>
      match ltv_table ltv with
      | none => .error .InvalidLTV
      | some (ltv_rate, apy) =>
        match required_collateral usdc_amount ltv_rate sol_price with
        | none => .error .ArithmeticOverflow
        | some rc =>
          if sb ≥ rc then
            if st.contract_usdc ≥ usdc_amount then
              (match checked_add st.user_wallet_usdc usdc_amount with
              | none => .error .TransferFailed
              | some uw =>
                match checked_add st.account.loan_count 1 with
                | none => .error .ArithmeticOverflow
                | some lc =>
                  match checked_sub sb rc with
                  | none => .error .ArithmeticOverflow
                  | some sb2 =>
                    match checked_add st.account.usdc_balance usdc_amount with
                    | none => .error .ArithmeticOverflow
                    | some ub =>
                      .ok { account :=
                              { owner := st.account.owner,
                                sol_balance := sb2,
                                usdc_balance := ub,
                                loan_count := lc,
                                loans := st.account.loans ++
                                  [{ id := lc, start_date := now,
                                     principal := usdc_amount, apy := apy,
                                     collateral := rc, ltv := ltv,
                                     borrower := st.account.owner }] },
                            account_lamports := st.account_lamports + sol_amount,
                            user_wallet_usdc := uw,
                            contract_usdc := st.contract_usdc - usdc_amount })
            else .error .TransferFailed
          else .error .InsufficientCollateral)
  else .error .MaxLoansReached

/-- The interest chain of `repay_loan` (lib.rs lines 192-197):
`(duration as u64).checked_mul(apy)?.checked_mul(principal)?.checked_div(SECONDS_IN_A_YEAR)?.checked_div(100)?`. -/
def accrue_interest (principal apy elapsed : Nat) : Option Nat :=
  (checked_mul elapsed apy).bind fun r1 =>
  (checked_mul r1 principal).bind fun r2 =>
  (checked_div r2 SECONDS_IN_A_YEAR).bind fun r3 =>
  checked_div r3 100

/-- Interest of a loan at time `now` (lib.rs lines 190-197):
`Clock` timestamp minus `start_date` through `i64::checked_sub`, cast to
`u64`, then the checked interest chain.  Both failure points map to
`ArithmeticOverflow` in the source, so they are collapsed into one
`Option`. -/
def loan_interest (loan : Loan) (now : Int) : Option Nat :=
  (i64_checked_sub now loan.start_date).bind fun duration =>
  accrue_interest loan.principal loan.apy (i64_as_u64 duration)

/-- `repay_loan` (lib.rs lines 173-263). -/
def repay_loan (st : ChainState) (caller : Nat) (loan_id : Nat) (usdc_amount : Nat)
    (now : Int) : Except ErrorCode ChainState :=
  if caller = st.account.owner then
    (match position (fun l => l.id == loan_id) st.account.loans with
    | none => .error .LoanNotFound
    | some i =>
      match get_at st.account.loans i with
      | none => .error .LoanNotFound
      | some loan =>
        if caller = loan.borrower then
          (match loan_interest loan now with
          | none => .error .ArithmeticOverflow
          | some interest =>
            match checked_add loan.principal interest with
            | none => .error .ArithmeticOverflow
            | some total_owed =>
              if usdc_amount ≤ total_owed then
                (if st.user_wallet_usdc ≥ usdc_amount then
                  (match checked_add st.contract_usdc usdc_amount with
                  | none => .error .TransferFailed
                  | some cu =>
                    match checked_sub st.account.usdc_balance usdc_amount with
                    | none => .error .ArithmeticOverflow
                    | some ub =>
                      if usdc_amount = total_owed then
                        (match checked_add st.account.sol_balance loan.collateral with
                        | none => .error .ArithmeticOverflow
                        | some sb =>
                          .ok { st with
                                account := { st.account with
                                             sol_balance := sb,
                                             usdc_balance := ub,
                                             loans := remove_at st.account.loans i },
                                user_wallet_usdc := st.user_wallet_usdc - usdc_amount,
                                contract_usdc := cu })
                      else
                        match checked_sub total_owed usdc_amount with
                        | none => .error .ArithmeticOverflow
                        | some remaining =>
                          match (if remaining > interest
                                 then checked_sub remaining interest
                                 else some 0) with
                          | none => .error .ArithmeticOverflow
                          | some remaining_principal =>
                            match checked_sub loan.principal remaining_principal with
                            | none => .error .ArithmeticOverflow
                            | some _paid_toward_principal =>
                              .ok { st with
                                    account := { st.account with
                                                 usdc_balance := ub,
                                                 loans := set_at st.account.loans i
                                                   { loan with
                                                     principal := remaining_principal,
                                                     start_date := now } },
                                    user_wallet_usdc := st.user_wallet_usdc - usdc_amount,
                                    contract_usdc := cu })
                 else .error .TransferFailed)
              else .error .RepaymentAmountTooHigh)
        else .error .UnauthorizedAccess)
  else .error .UnauthorizedAccess

end SolSavings

namespace UsdcSol

/-- `SOL_PRICE` from `src/main_usdc_sol_collateral.rs` ($150 per SOL). -/
def SOL_PRICE : Nat := 150

/-- `LTV` from `src/main_usdc_sol_collateral.rs` (25% LTV). -/
def LTV : Nat := 25

/-- The interest divisor `365 * 24 * 60 * 60 * 100` of the single-loan
variant. -/
def INTEREST_DIVISOR : Nat := 365 * 24 * 60 * 60 * 100

/-- The `LoanAccount` data (`src/main_usdc_sol_collateral.rs`). -/
structure LoanAccount where
  borrower : Nat
  start_date : Int
  principal : Nat
  apy : Nat
  collateral : Nat
deriving Repr, DecidableEq

/-- The `LoanError` enum of the single-loan variant, together with the
`ProgramError` outcomes its instructions can surface
(`MissingRequiredSignature`, `InvalidAccountData`, `InsufficientFunds`), a
`TokenTransferFailed` for an SPL transfer aborting, and `ArithmeticPanic`
for an unchecked arithmetic overflow aborting the transaction. -/
inductive LoanErr where
  | InvalidInstruction
  | NotRentExempt
  | InvalidLoanAmount
  | InsufficientCollateral
  | Overflow
  | InsufficientRepaymentAmount
  | LoanNotUnderwater
  | MissingRequiredSignature
  | InvalidAccountData
  | InsufficientFunds
  | TokenTransferFailed
  | ArithmeticPanic
deriving Repr, DecidableEq

/-- On-chain state touched by `repay_loan` / `liquidate_loan`: the loan
account's data (`none` once the account is closed) and lamports, plus the
caller's (borrower's or liquidator's) lamports and USDC balance and the
program's USDC balance. -/
structure SolState where
  loan : Option LoanAccount
  loan_lamports : Nat
  caller_lamports : Nat
  caller_usdc : Nat
  program_usdc : Nat
deriving Repr, DecidableEq

/-- `(clock.unix_timestamp - loan_data.start_date) as u64` (lines 196 and
249): the unchecked `i64` subtraction aborts on `i64` overflow, and the
(possibly negative) difference is cast to `u64` by two's complement. -/
def time_elapsed (now start : Int) : Option Nat :=
  if -(I64_HALF : Int) ≤ now - start ∧ now - start < (I64_HALF : Int)
  then some (i64_as_u64 (now - start)) else none

/-- `(principal * apy * time_elapsed) / (365*24*60*60*100)` (lines 197 and
250): the two unchecked multiplications abort on overflow; the division is
by a nonzero constant. -/
def usdc_interest (principal apy elapsed : Nat) : Option Nat :=
  (checked_mul principal apy).bind fun r1 =>
  (checked_mul r1 elapsed).bind fun r2 =>
  some (r2 / INTEREST_DIVISOR)

/-- `repay_loan` (lines 177-231).  The caller must be the recorded
borrower; the variant demands `amount ≥ total_due` (full repayment or
overpayment), transfers `amount` USDC from the borrower, returns the whole
collateral, and closes the loan account. -/
def repay_loan (st : SolState) (caller : Nat) (amount : Nat) (now : Int) :
    Except LoanErr SolState :=
  match st.loan with
  | none => .error .InvalidAccountData
  | some ld =>
    if ld.borrower = caller then
      (match time_elapsed now ld.start_date with
      | none => .error .ArithmeticPanic
      | some elapsed =>
        match usdc_interest ld.principal ld.apy elapsed with
        | none => .error .ArithmeticPanic
        | some interest =>
          match checked_add ld.principal interest with
          | none => .error .Overflow
          | some total_due =>
            if amount < total_due then .error .InsufficientRepaymentAmount
            else
              if st.caller_usdc ≥ amount then
                (match checked_add st.program_usdc amount with
                | none => .error .TokenTransferFailed
                | some pu =>
                  match checked_sub st.loan_lamports ld.collateral with
                  | none => .error .InsufficientFunds
                  | some ll =>
                    match checked_add st.caller_lamports ld.collateral with
                    | none => .error .Overflow
                    | some cl =>
                      .ok { loan := none, loan_lamports := ll,
                            caller_lamports := cl,
                            caller_usdc := st.caller_usdc - amount,
                            program_usdc := pu })
              else .error .TokenTransferFailed)
    else .error .InvalidAccountData

/-- `liquidate_loan` (lines 233-286).  The source fixes the price to the
constant `SOL_PRICE`; the `sol_price` parameter stands for that constant
(the spec's oracle price), so theorems can quantify over it — instantiate
it with `SOL_PRICE` to recover the source verbatim. -/
def liquidate_loan (st : SolState) (now : Int) (sol_price : Nat) :
    Except LoanErr SolState :=
  match st.loan with
  | none => .error .InvalidAccountData
  | some ld =>
    match time_elapsed now ld.start_date with
    | none => .error .ArithmeticPanic
    | some elapsed =>
      match usdc_interest ld.principal ld.apy elapsed with
      | none => .error .ArithmeticPanic
      | some interest =>
        match checked_add ld.principal interest with
        | none => .error .Overflow
        | some total_due =>
          match checked_mul ld.collateral sol_price with
          | none => .error .ArithmeticPanic
          | some cv_raw =>
            if cv_raw / 100 ≥ total_due then .error .LoanNotUnderwater
            else
              if st.caller_usdc ≥ total_due then
                (match checked_add st.program_usdc total_due with
                | none => .error .TokenTransferFailed
                | some pu =>
                  match checked_sub st.loan_lamports ld.collateral with
                  | none => .error .InsufficientFunds
                  | some ll =>
                    match checked_add st.caller_lamports ld.collateral with
                    | none => .error .Overflow
                    | some cl =>
                      .ok { loan := none, loan_lamports := ll,
                            caller_lamports := cl,
                            caller_usdc := st.caller_usdc - total_due,
                            program_usdc := pu })
              else .error .TokenTransferFailed

end UsdcSol

/-! ### Basic facts about the checked arithmetic -/

theorem checked_add_some {a b t : Nat} (h : checked_add a b = some t) :
    t = a + b ∧ a + b < U64_MOD := by
  unfold checked_add at h
  split at h <;> simp_all

theorem checked_sub_some {a b t : Nat} (h : checked_sub a b = some t) :
    t = a - b ∧ b ≤ a := by
  unfold checked_sub at h
  split at h <;> simp_all

theorem checked_mul_some {a b t : Nat} (h : checked_mul a b = some t) :
    t = a * b ∧ a * b < U64_MOD := by
  unfold checked_mul at h
  split at h <;> simp_all

theorem checked_add_eq {a b : Nat} (h : a + b < U64_MOD) :
    checked_add a b = some (a + b) := by
  simp [checked_add, h]

theorem checked_sub_eq {a b : Nat} (h : b ≤ a) :
    checked_sub a b = some (a - b) := by
  simp [checked_sub, h]

theorem checked_mul_eq {a b : Nat} (h : a * b < U64_MOD) :
    checked_mul a b = some (a * b) := by
  simp [checked_mul, h]

theorem checked_div_eq {a b : Nat} (h : b ≠ 0) :
    checked_div a b = some (a / b) := by
  simp [checked_div, h]
theorem checked_add_none {a b : Nat} (h : ¬ a + b < U64_MOD) :
    checked_add a b = none := by
  simp [checked_add, h]

theorem checked_sub_none {a b : Nat} (h : ¬ b ≤ a) :
    checked_sub a b = none := by
  simp [checked_sub, h]

theorem checked_mul_none {a b : Nat} (h : ¬ a * b < U64_MOD) :
    checked_mul a b = none := by
  simp [checked_mul, h]

theorem i64_as_u64_of_nonneg {x : Int} (h0 : 0 ≤ x) (h1 : x < (U64_MOD : Int)) :
    i64_as_u64 x = x.toNat := by
  unfold i64_as_u64
  rw [Int.emod_eq_of_lt h0 h1]

/-! ### Facts about the loan-list helpers -/

namespace SolSavings

theorem position_eq_none (p : Loan → Bool) (L : List Loan)
    (h : ∀ l ∈ L, p l = false) : position p L = none := by
  induction L with
  | nil => rfl
  | cons a as ih =>
    have ha : p a = false := h a (List.mem_cons_self a as)
    simp [position, ha, ih fun l hl => h l (List.mem_cons_of_mem a hl)]

theorem position_append_fresh (p : Loan → Bool) (L : List Loan) (x : Loan)
    (h : ∀ l ∈ L, p l = false) (hx : p x = true) :
    position p (L ++ [x]) = some L.length := by
  induction L with
  | nil => simp [position, hx]
  | cons a as ih =>
    have ha : p a = false := h a (List.mem_cons_self a as)
    simp [position, ha, ih fun l hl => h l (List.mem_cons_of_mem a hl)]

theorem get_at_append_length (L : List Loan) (x : Loan) :
    get_at (L ++ [x]) L.length = some x := by
  induction L with
  | nil => rfl
  | cons a as ih => simpa [get_at] using ih

theorem remove_at_append_length (L : List Loan) (x : Loan) :
    remove_at (L ++ [x]) L.length = L := by
  induction L with
  | nil => rfl
  | cons a as ih => simpa [remove_at] using ih

theorem mem_remove_at {x : Loan} : ∀ (L : List Loan) (i : Nat),
    x ∈ remove_at L i → x ∈ L
  | [], _, h => by simp [remove_at] at h
  | a :: as, 0, h => List.mem_cons_of_mem a h
  | a :: as, n + 1, h => by
      rcases List.mem_cons.mp h with h' | h'
      · exact h' ▸ List.mem_cons_self a as
      · exact List.mem_cons_of_mem a (mem_remove_at as n h')

theorem mem_set_at {x y : Loan} : ∀ (L : List Loan) (i : Nat),
    x ∈ set_at L i y → x ∈ L ∨ x = y
  | [], _, h => by simp [set_at] at h
  | a :: as, 0, h => by
      rcases List.mem_cons.mp h with h' | h'
      · exact Or.inr h'
      · exact Or.inl (List.mem_cons_of_mem a h')
  | a :: as, n + 1, h => by
      rcases List.mem_cons.mp h with h' | h'
      · exact Or.inl (h' ▸ List.mem_cons_self a as)
      · rcases mem_set_at as n h' with h'' | h''
        · exact Or.inl (List.mem_cons_of_mem a h'')
        · exact Or.inr h''

theorem sum_collateral_append (L : List Loan) (x : Loan) :
    sum_collateral (L ++ [x]) = sum_collateral L + x.collateral := by
  induction L with
  | nil => simp [sum_collateral]
  | cons a as ih => simp [sum_collateral, ih]; omega

theorem sum_collateral_remove_at {loan : Loan} : ∀ (L : List Loan) (i : Nat),
    get_at L i = some loan →
    loan.collateral + sum_collateral (remove_at L i) = sum_collateral L
  | [], i, h => by simp [get_at] at h
  | a :: as, 0, h => by
      simp [get_at] at h
      simp [remove_at, sum_collateral, h]
  | a :: as, n + 1, h => by
      have := sum_collateral_remove_at as n h
      simp [remove_at, sum_collateral]
      omega

theorem sum_collateral_set_at {loan : Loan} (y : Loan) : ∀ (L : List Loan) (i : Nat),
    get_at L i = some loan →
    sum_collateral (set_at L i y) + loan.collateral = sum_collateral L + y.collateral
  | [], i, h => by simp [get_at] at h
  | a :: as, 0, h => by
      simp [get_at] at h
      simp [set_at, sum_collateral, h]
      omega
  | a :: as, n + 1, h => by
      have := sum_collateral_set_at y as n h
      simp [set_at, sum_collateral]
      omega

/-- Inversion of a successful `repay_loan`. -/
theorem repay_ok_cases (st : ChainState) (caller loan_id amount : Nat) (now : Int)
    (st' : ChainState) (h : repay_loan st caller loan_id amount now = .ok st') :
    ∃ i loan interest,
      caller = st.account.owner ∧
      position (fun l => l.id == loan_id) st.account.loans = some i ∧
      get_at st.account.loans i = some loan ∧
      caller = loan.borrower ∧
      loan_interest loan now = some interest ∧
      loan.principal + interest < U64_MOD ∧
      amount ≤ loan.principal + interest ∧
      amount ≤ st.user_wallet_usdc ∧
      st.contract_usdc + amount < U64_MOD ∧
      amount ≤ st.account.usdc_balance ∧
      ((amount = loan.principal + interest ∧
        st.account.sol_balance + loan.collateral < U64_MOD ∧
        st' = { st with
                account := { st.account with
                             sol_balance := st.account.sol_balance + loan.collateral,
                             usdc_balance := st.account.usdc_balance - amount,
                             loans := remove_at st.account.loans i },
                user_wallet_usdc := st.user_wallet_usdc - amount,
                contract_usdc := st.contract_usdc + amount }) ∨
       (amount < loan.principal + interest ∧
        st' = { st with
                account := { st.account with
                             usdc_balance := st.account.usdc_balance - amount,
                             loans := set_at st.account.loans i
                               { loan with
                                 principal :=
                                   if interest < loan.principal + interest - amount
                                   then loan.principal + interest - amount - interest
                                   else 0,
                                 start_date := now } },
                user_wallet_usdc := st.user_wallet_usdc - amount,
                contract_usdc := st.contract_usdc + amount })) := by
  unfold repay_loan at h
  by_cases hown : caller = st.account.owner
  case neg => rw [if_neg hown] at h; exact Except.noConfusion h
  rw [if_pos hown] at h
  cases hpos : position (fun l => l.id == loan_id) st.account.loans with
  | none =>
    simp only [hpos] at h
    exact Except.noConfusion h
  | some i =>
  simp only [hpos] at h
  cases hget : get_at st.account.loans i with
  | none =>
    simp only [hget] at h
    exact Except.noConfusion h
  | some loan =>
  simp only [hget] at h
  by_cases hbor : caller = loan.borrower
  case neg => rw [if_neg hbor] at h; exact Except.noConfusion h
  rw [if_pos hbor] at h
  cases hint : loan_interest loan now with
  | none =>
    simp only [hint] at h
    exact Except.noConfusion h
  | some interest =>
  simp only [hint] at h
  by_cases htot : loan.principal + interest < U64_MOD
  case neg =>
    simp only [checked_add_none htot] at h
    exact Except.noConfusion h
  simp only [checked_add_eq htot] at h
  by_cases hle : amount ≤ loan.principal + interest
  case neg => rw [if_neg hle] at h; exact Except.noConfusion h
  rw [if_pos hle] at h
  by_cases hw : st.user_wallet_usdc ≥ amount
  case neg => rw [if_neg hw] at h; exact Except.noConfusion h
  rw [if_pos hw] at h
  by_cases hcu : st.contract_usdc + amount < U64_MOD
  case neg =>
    simp only [checked_add_none hcu] at h
    exact Except.noConfusion h
  simp only [checked_add_eq hcu] at h
  by_cases hub : amount ≤ st.account.usdc_balance
  case neg =>
    simp only [checked_sub_none hub] at h
    exact Except.noConfusion h
  simp only [checked_sub_eq hub] at h
  by_cases heq : amount = loan.principal + interest
  · rw [if_pos heq] at h
    by_cases hsol : st.account.sol_balance + loan.collateral < U64_MOD
    case neg =>
      simp only [checked_add_none hsol] at h
      exact Except.noConfusion h
    simp only [checked_add_eq hsol] at h
    cases h
    exact ⟨i, loan, interest, hown, rfl, hget, hbor, hint, htot, hle, hw, hcu, hub,
           Or.inl ⟨heq, hsol, rfl⟩⟩
  · rw [if_neg heq] at h
    simp only [checked_sub_eq hle] at h
    by_cases hri : interest < loan.principal + interest - amount
    · simp only [if_pos hri] at h
      simp only [checked_sub_eq (Nat.le_of_lt hri)] at h
      have hpp : loan.principal + interest - amount - interest ≤ loan.principal := by omega
      simp only [checked_sub_eq hpp] at h
      cases h
      refine ⟨i, loan, interest, hown, rfl, hget, hbor, hint, htot, hle, hw, hcu, hub,
             Or.inr ⟨Nat.lt_of_le_of_ne hle heq, ?_⟩⟩
      rw [if_pos hri]
    · simp only [if_neg hri] at h
      simp only [checked_sub_eq (Nat.zero_le loan.principal)] at h
      cases h
      refine ⟨i, loan, interest, hown, rfl, hget, hbor, hint, htot, hle, hw, hcu, hub,
             Or.inr ⟨Nat.lt_of_le_of_ne hle heq, ?_⟩⟩
      rw [if_neg hri]

end SolSavings

/-! ### Claim theorems -/

/-- C2: for every debt amount, every LTV ratio in the enumerated table
{20, 25, 33, 50} and every positive collateral price, the collateral
sizing chain of `deposit_sol_and_take_loan` computes exactly
`debt * 100 / ltv * 10_000 / price`, evaluated left to right
(multiply-before-divide) with integer truncation at each division, all
through checked operations: it returns `some` of that value when no
intermediate product overflows `u64` and fails otherwise, and
`deposit_sol_and_take_loan` surfaces such a failure as
`ArithmeticOverflow`. -/
theorem required_collateral_formula (debt ltv price : Nat)
    (hltv : ltv = 20 ∨ ltv = 25 ∨ ltv = 33 ∨ ltv = 50) (hprice : 0 < price) :
    (SolSavings.required_collateral debt ltv price =
      if debt * 100 < U64_MOD ∧ debt * 100 / ltv * 10000 < U64_MOD
      then some (debt * 100 / ltv * 10000 / price) else none) ∧
    (∀ st sol_amount apy now,
      st.account.loans.length < SolSavings.MAX_LOANS_PER_USER →
      st.account.sol_balance + sol_amount < U64_MOD →
      SolSavings.ltv_table ltv = some (ltv, apy) →
      SolSavings.required_collateral debt ltv price = none →
      SolSavings.deposit_sol_and_take_loan st sol_amount debt ltv price now =
        Except.error SolSavings.ErrorCode.ArithmeticOverflow) := by
  have hltv0 : ltv ≠ 0 := by rcases hltv with h | h | h | h <;> omega
  have hprice0 : price ≠ 0 := by omega
  constructor
  · unfold SolSavings.required_collateral
    by_cases h1 : debt * 100 < U64_MOD
    · rw [checked_mul_eq h1, Option.some_bind, checked_div_eq hltv0, Option.some_bind]
      by_cases h2 : debt * 100 / ltv * 10000 < U64_MOD
      · rw [checked_mul_eq h2, Option.some_bind, checked_div_eq hprice0, if_pos ⟨h1, h2⟩]
      · simp [checked_mul, h2, h1]
    · simp [checked_mul, h1]
  · intro st sol_amount apy now hlen hadd htable hrc
    unfold SolSavings.deposit_sol_and_take_loan
    rw [if_pos hlen, checked_add_eq hadd, htable]
    simp only [hrc]

/-- C9 counterexample: at principal = 100,000,000, apy = 5, elapsed =
86,400 seconds, the interest chain of `repay_loan` computes 13,698 —
not 1,369 as the claim states. -/
theorem interest_one_day_cex :
    SolSavings.accrue_interest 100000000 5 86400 = some 13698 ∧
    SolSavings.accrue_interest 100000000 5 86400 ≠ some 1369 := by decide

/-- C9 amended: for principal = 100,000,000, apy = 5, elapsed = 86,400
seconds and `SECONDS_IN_A_YEAR = 31,536,000`, the accrued interest is
13,698 (integer truncation) and the total owed is 100,013,698: the
interest of a loan with those parameters one day after `start_date` is
13,698, and the checked total is 100,013,698. -/
theorem interest_one_day_amended :
    SolSavings.loan_interest
        { id := 1, start_date := 0, principal := 100000000, apy := 5,
          collateral := 50, ltv := 33, borrower := 7 } 86400 = some 13698 ∧
    checked_add 100000000 13698 = some 100013698 := by decide

/-- C6 counterexample: a clock rollback does not fail with
`ArithmeticOverflow`.  The loan has `start_date = 100` and `apy = 0`;
repayment at `now = 0 < start_date` succeeds (full repayment of the
principal, collateral returned, loan removed) because `i64::checked_sub`
accepts the negative duration and the wrapped `u64` cast times `apy = 0`
gives interest 0. -/
theorem clock_rollback_cex :
    SolSavings.repay_loan
        ⟨⟨7, 5, 50, 1, [⟨1, 100, 50, 0, 10, 20, 7⟩]⟩, 10, 50, 0⟩ 7 1 50 0 =
      Except.ok ⟨⟨7, 15, 0, 1, []⟩, 10, 0, 50⟩ ∧ (0 : Int) < 100 :=
  ⟨rfl, by decide⟩

/-- C6 amended: a clock rollback (`now < start_date`) is not rejected as
such: `i64::checked_sub` fails only when the subtraction leaves the `i64`
range, and the negative duration is reinterpreted as a huge `u64`; the
operation then fails with `ArithmeticOverflow` only if a subsequent
checked multiplication overflows.  In particular, whenever `apy = 0` the
computed interest is `some 0` for every `now` whose difference from
`start_date` fits in `i64` — including every `now < start_date` — so
repayment proceeds as if no time had passed. -/
theorem clock_rollback_amended (loan : SolSavings.Loan) (now : Int)
    (hapy : loan.apy = 0)
    (hr : -(I64_HALF : Int) ≤ now - loan.start_date ∧
          now - loan.start_date < (I64_HALF : Int)) :
    SolSavings.loan_interest loan now = some 0 := by
  unfold SolSavings.loan_interest i64_checked_sub
  rw [if_pos hr, Option.some_bind]
  unfold SolSavings.accrue_interest
  rw [hapy]
  have h1 : i64_as_u64 (now - loan.start_date) * 0 < U64_MOD := by
    simp [U64_MOD]
  rw [checked_mul_eq h1]
  simp [checked_mul, checked_div, U64_MOD, SolSavings.SECONDS_IN_A_YEAR]

/-- C6 amended, witness: the loan of the counterexample (`start_date =
100`, `apy = 0`) evaluated at `now = 0`. -/
theorem clock_rollback_amended_witness :
    SolSavings.loan_interest ⟨1, 100, 50, 0, 10, 20, 7⟩ 0 = some 0 :=
  clock_rollback_amended ⟨1, 100, 50, 0, 10, 20, 7⟩ 0 rfl (by decide)

/-- C2 witness: the claim theorem evaluated at `debt = 1,000,000`,
`ltv = 25`, `price = 15,000` (no overflow, value 2,666,666) and, for the
overflow conjunct, at `debt = 2 ^ 64` on an empty position. -/
theorem required_collateral_formula_witness :
    SolSavings.required_collateral 1000000 25 15000 = some 2666666 ∧
    SolSavings.deposit_sol_and_take_loan ⟨⟨7, 0, 0, 0, []⟩, 0, 0, 0⟩ 0 (2 ^ 64) 25 15000 0 =
      Except.error SolSavings.ErrorCode.ArithmeticOverflow := by
  constructor
  · rw [(required_collateral_formula 1000000 25 15000 (by decide) (by decide)).1]
    decide
  · exact (required_collateral_formula (2 ^ 64) 25 15000 (by decide) (by decide)).2
      ⟨⟨7, 0, 0, 0, []⟩, 0, 0, 0⟩ 0 1 0 (by decide) (by decide) (by decide) (by decide)


namespace SolSavings

/-- Inversion of a successful `withdraw_sol`. -/
theorem withdraw_sol_ok_cases (st : ChainState) (amount : Nat) (st' : ChainState)
    (h : withdraw_sol st amount = .ok st') :
    amount ≤ st.account.sol_balance ∧
    st' = { st with
            account := { st.account with
                         sol_balance := st.account.sol_balance - amount },
            account_lamports := st.account_lamports - amount } := by
  unfold withdraw_sol at h
  by_cases hge : st.account.sol_balance ≥ amount
  · rw [if_pos hge] at h
    simp only [checked_sub_eq hge] at h
    cases h
    exact ⟨hge, rfl⟩
  · rw [if_neg hge] at h
    exact Except.noConfusion h

/-- Inversion of a successful `deposit_sol_and_take_loan`. -/
theorem deposit_ok_cases (st : ChainState) (sol_amount usdc_amount ltv sol_price : Nat)
    (now : Int) (st' : ChainState)
    (h : deposit_sol_and_take_loan st sol_amount usdc_amount ltv sol_price now = .ok st') :
    ∃ ltv_rate apy rc,
      st.account.loans.length < MAX_LOANS_PER_USER ∧
      st.account.sol_balance + sol_amount < U64_MOD ∧
      ltv_table ltv = some (ltv_rate, apy) ∧
      required_collateral usdc_amount ltv_rate sol_price = some rc ∧
      rc ≤ st.account.sol_balance + sol_amount ∧
      usdc_amount ≤ st.contract_usdc ∧
      st.user_wallet_usdc + usdc_amount < U64_MOD ∧
      st.account.loan_count + 1 < U64_MOD ∧
      st.account.usdc_balance + usdc_amount < U64_MOD ∧
      st' = { account :=
                { owner := st.account.owner,
                  sol_balance := st.account.sol_balance + sol_amount - rc,
                  usdc_balance := st.account.usdc_balance + usdc_amount,
                  loan_count := st.account.loan_count + 1,
                  loans := st.account.loans ++
                    [{ id := st.account.loan_count + 1, start_date := now,
                       principal := usdc_amount, apy := apy, collateral := rc,
                       ltv := ltv, borrower := st.account.owner }] },
              account_lamports := st.account_lamports + sol_amount,
              user_wallet_usdc := st.user_wallet_usdc + usdc_amount,
              contract_usdc := st.contract_usdc - usdc_amount } := by
  unfold deposit_sol_and_take_loan at h
  by_cases hlen : st.account.loans.length < MAX_LOANS_PER_USER
  case neg => rw [if_neg hlen] at h; exact Except.noConfusion h
  rw [if_pos hlen] at h
  by_cases hadd : st.account.sol_balance + sol_amount < U64_MOD
  case neg =>
    simp only [checked_add_none hadd] at h
    exact Except.noConfusion h
  simp only [checked_add_eq hadd] at h
  cases htab : ltv_table ltv with
  | none =>
    simp only [htab] at h
    exact Except.noConfusion h
  | some pr =>
  obtain ⟨ltv_rate, apy⟩ := pr
  simp only [htab] at h
  cases hrc : required_collateral usdc_amount ltv_rate sol_price with
  | none =>
    simp only [hrc] at h
    exact Except.noConfusion h
  | some rc =>
  simp only [hrc] at h
  by_cases hge : st.account.sol_balance + sol_amount ≥ rc
  case neg => rw [if_neg hge] at h; exact Except.noConfusion h
  rw [if_pos hge] at h
  by_cases hcu : st.contract_usdc ≥ usdc_amount
  case neg => rw [if_neg hcu] at h; exact Except.noConfusion h
  rw [if_pos hcu] at h
  by_cases hw : st.user_wallet_usdc + usdc_amount < U64_MOD
  case neg =>
    simp only [checked_add_none hw] at h
    exact Except.noConfusion h
  simp only [checked_add_eq hw] at h
  by_cases hlc : st.account.loan_count + 1 < U64_MOD
  case neg =>
    simp only [checked_add_none hlc] at h
    exact Except.noConfusion h
  simp only [checked_add_eq hlc] at h
  simp only [checked_sub_eq hge] at h
  by_cases hub : st.account.usdc_balance + usdc_amount < U64_MOD
  case neg =>
    simp only [checked_add_none hub] at h
    exact Except.noConfusion h
  simp only [checked_add_eq hub] at h
  cases h
  exact ⟨ltv_rate, apy, rc, hlen, hadd, rfl, hrc, hge, hcu, hw, hlc, hub, rfl⟩

end SolSavings

/-- C4 counterexample: a successful operation can leave a loan with
`principal == 0` in the loans sequence.  The loan has principal 100 and
accrued interest 8 (total owed 108) one year in; repaying 105 is accepted
as a partial repayment (105 < 108), `remaining = 3 ≤ interest = 8`, so the
loan's principal is set to 0 — and the loan is retained, not removed. -/
theorem principal_zero_retained_cex :
    SolSavings.repay_loan
        ⟨⟨7, 0, 200, 1, [⟨1, 0, 100, 8, 50, 50, 7⟩]⟩, 50, 200, 0⟩ 7 1 105 31536000 =
      Except.ok ⟨⟨7, 0, 95, 1, [⟨1, 31536000, 0, 8, 50, 50, 7⟩]⟩, 50, 95, 105⟩ ∧
    SolSavings.loan_interest ⟨1, 0, 100, 8, 50, 50, 7⟩ 31536000 = some 8 :=
  ⟨rfl, by decide⟩

/-- C4 amended: after a successful withdraw, an origination of a positive
debt amount, a full repayment, or a partial repayment whose remaining
balance exceeds the accrued interest, every loan in the sequence has
`principal > 0` (provided all did before); but a partial repayment with
`total_owed - amount ≤ interest` retains the loan with `principal == 0`
(counterexample above), and an origination of a zero debt amount appends a
zero-principal loan. -/
theorem principal_pos_amended (st : SolSavings.ChainState)
    (hall : ∀ l ∈ st.account.loans, 0 < l.principal) :
    (∀ amount st', SolSavings.withdraw_sol st amount = .ok st' →
        ∀ l ∈ st'.account.loans, 0 < l.principal) ∧
    (∀ sol usdc ltv price now st', 0 < usdc →
        SolSavings.deposit_sol_and_take_loan st sol usdc ltv price now = .ok st' →
        ∀ l ∈ st'.account.loans, 0 < l.principal) ∧
    (∀ caller loan_id amount now st' i loan interest,
        SolSavings.position (fun l => l.id == loan_id) st.account.loans = some i →
        SolSavings.get_at st.account.loans i = some loan →
        SolSavings.loan_interest loan now = some interest →
        (amount = loan.principal + interest ∨
         interest < loan.principal + interest - amount) →
        SolSavings.repay_loan st caller loan_id amount now = .ok st' →
        ∀ l ∈ st'.account.loans, 0 < l.principal) := by
  refine ⟨?_, ?_, ?_⟩
  · intro amount st' h l hl
    obtain ⟨-, rfl⟩ := SolSavings.withdraw_sol_ok_cases st amount st' h
    exact hall l hl
  · intro sol usdc ltv price now st' husdc h l hl
    obtain ⟨lr, apy, rc, -, -, -, -, -, -, -, -, -, rfl⟩ :=
      SolSavings.deposit_ok_cases st sol usdc ltv price now st' h
    rcases List.mem_append.mp hl with h' | h'
    · exact hall l h'
    · rw [List.mem_singleton.mp h']
      exact husdc
  · intro caller loan_id amount now st' i loan interest hp hg hi hcase h l hl
    obtain ⟨i', loan', interest', -, hp', hg', -, hi', -, -, -, -, -, hcases⟩ :=
      SolSavings.repay_ok_cases st caller loan_id amount now st' h
    rw [hp] at hp'
    obtain rfl : i = i' := Option.some.inj hp'
    rw [hg] at hg'
    obtain rfl : loan = loan' := Option.some.inj hg'
    rw [hi] at hi'
    obtain rfl : interest = interest' := Option.some.inj hi'
    rcases hcases with ⟨heq, -, rfl⟩ | ⟨hlt, rfl⟩
    · exact hall l (SolSavings.mem_remove_at st.account.loans i hl)
    · rcases SolSavings.mem_set_at st.account.loans i hl with h' | h'
      · exact hall l h'
      · rcases hcase with hcase | hcase
        · omega
        · rw [h']
          simp only [if_pos hcase]
          omega

/-- C4 amended, witness: a withdrawal of 5 from a position holding one
loan of principal 40 preserves positivity of that loan's principal. -/
theorem principal_pos_amended_witness :
    0 < (SolSavings.Loan.mk 1 0 40 1 9 25 3).principal :=
  (principal_pos_amended ⟨⟨3, 20, 0, 1, [⟨1, 0, 40, 1, 9, 25, 3⟩]⟩, 29, 0, 0⟩
      (by decide)).1 5 ⟨⟨3, 15, 0, 1, [⟨1, 0, 40, 1, 9, 25, 3⟩]⟩, 24, 0, 0⟩ rfl
    ⟨1, 0, 40, 1, 9, 25, 3⟩ (by decide)

/-- C5 counterexample: immediately after a successful origination on a
fresh position (deposit 1000 lamports, borrow 1000 at LTV 50, price
20000, required collateral 1000), the user's `sol_balance` is 0 while the
sum of `collateral` over the open loans is 1000 — `sol_balance` is *not*
`≥ Σ collateral`. -/
theorem collateral_ge_sum_cex :
    SolSavings.deposit_sol_and_take_loan
        ⟨⟨7, 0, 0, 0, []⟩, 0, 0, 1000000⟩ 1000 1000 50 20000 0 =
      Except.ok ⟨⟨7, 0, 1000, 1, [⟨1, 0, 1000, 8, 1000, 50, 7⟩]⟩, 1000, 1000, 999000⟩ ∧
    SolSavings.sum_collateral [⟨1, 0, 1000, 8, 1000, 50, 7⟩] = 1000 ∧
    ¬ (SolSavings.sum_collateral [⟨1, 0, 1000, 8, 1000, 50, 7⟩] ≤ 0) :=
  ⟨rfl, by decide, by decide⟩

/-- C5 amended: `sol_balance` records the *free* collateral balance —
origination carves the committed collateral out of it and only full
repayment folds it back — so `sol_balance ≥ Σ collateral` fails
(counterexample above).  What every successful operation preserves is the
backing equation `account_lamports = sol_balance + Σ collateral` over the
open loans, hence the account's total collateral holdings always cover
the committed collateral. -/
theorem lamports_backing_amended (st : SolSavings.ChainState)
    (hinv : st.account_lamports =
        st.account.sol_balance + SolSavings.sum_collateral st.account.loans) :
    (∀ amount st', SolSavings.withdraw_sol st amount = .ok st' →
        st'.account_lamports =
          st'.account.sol_balance + SolSavings.sum_collateral st'.account.loans) ∧
    (∀ sol usdc ltv price now st',
        SolSavings.deposit_sol_and_take_loan st sol usdc ltv price now = .ok st' →
        st'.account_lamports =
          st'.account.sol_balance + SolSavings.sum_collateral st'.account.loans) ∧
    (∀ caller loan_id amount now st',
        SolSavings.repay_loan st caller loan_id amount now = .ok st' →
        st'.account_lamports =
          st'.account.sol_balance + SolSavings.sum_collateral st'.account.loans) := by
  refine ⟨?_, ?_, ?_⟩
  · intro amount st' h
    obtain ⟨hge, rfl⟩ := SolSavings.withdraw_sol_ok_cases st amount st' h
    simp only
    omega
  · intro sol usdc ltv price now st' h
    obtain ⟨lr, apy, rc, -, -, -, -, hge, -, -, -, -, rfl⟩ :=
      SolSavings.deposit_ok_cases st sol usdc ltv price now st' h
    simp only [SolSavings.sum_collateral_append]
    omega
  · intro caller loan_id amount now st' h
    obtain ⟨i, loan, interest, -, -, hg, -, -, -, -, -, -, -, hcases⟩ :=
      SolSavings.repay_ok_cases st caller loan_id amount now st' h
    rcases hcases with ⟨heq, hsol, rfl⟩ | ⟨hlt, rfl⟩
    · have hrm := SolSavings.sum_collateral_remove_at st.account.loans i hg
      simp only
      omega
    · have hset := SolSavings.sum_collateral_set_at
        { loan with
          principal := if interest < loan.principal + interest - amount
                       then loan.principal + interest - amount - interest else 0,
          start_date := now } st.account.loans i hg
      simp only at hset ⊢
      omega

/-- C5 amended, witness: a withdrawal of 4 from a position with
`account_lamports = 16 = sol_balance 10 + committed 6` preserves the
backing equation. -/
theorem lamports_backing_amended_witness :
    (SolSavings.ChainState.mk ⟨4, 6, 0, 1, [⟨1, 0, 30, 0, 6, 20, 4⟩]⟩ 12 0 0).account_lamports =
      (SolSavings.ChainState.mk ⟨4, 6, 0, 1, [⟨1, 0, 30, 0, 6, 20, 4⟩]⟩ 12 0 0).account.sol_balance +
      SolSavings.sum_collateral [⟨1, 0, 30, 0, 6, 20, 4⟩] :=
  (lamports_backing_amended ⟨⟨4, 10, 0, 1, [⟨1, 0, 30, 0, 6, 20, 4⟩]⟩, 16, 0, 0⟩
      (by decide)).1 4 ⟨⟨4, 6, 0, 1, [⟨1, 0, 30, 0, 6, 20, 4⟩]⟩, 12, 0, 0⟩ rfl

/-- C3: a repayment of `amount < total_owed` on an existing loan by its
authorized borrower (with a covered wallet and a sufficient recorded
balance) updates exactly the loan and the USDC balances: letting
`remaining = total_owed - amount`, the loan's principal becomes
`remaining - interest` if `remaining > interest` and 0 otherwise, its
`start_date` is reset to `now`, and — as the resulting state shows — the
loan's `collateral` field, the position's `sol_balance` and the account's
lamports are all unchanged: no collateral moves. -/
theorem repay_below_total_eq (st : SolSavings.ChainState) (caller loan_id amount : Nat)
    (now : Int) (i : Nat) (loan : SolSavings.Loan) (interest : Nat)
    (hown : caller = st.account.owner)
    (hp : SolSavings.position (fun l => l.id == loan_id) st.account.loans = some i)
    (hg : SolSavings.get_at st.account.loans i = some loan)
    (hbor : caller = loan.borrower)
    (hi : SolSavings.loan_interest loan now = some interest)
    (htot : loan.principal + interest < U64_MOD)
    (hlt : amount < loan.principal + interest)
    (hw : amount ≤ st.user_wallet_usdc)
    (hcu : st.contract_usdc + amount < U64_MOD)
    (hub : amount ≤ st.account.usdc_balance) :
    SolSavings.repay_loan st caller loan_id amount now =
      Except.ok { st with
        account := { st.account with
                     usdc_balance := st.account.usdc_balance - amount,
                     loans := SolSavings.set_at st.account.loans i
                       { loan with
                         principal := if interest < loan.principal + interest - amount
                                      then loan.principal + interest - amount - interest
                                      else 0,
                         start_date := now } },
        user_wallet_usdc := st.user_wallet_usdc - amount,
        contract_usdc := st.contract_usdc + amount } := by
  unfold SolSavings.repay_loan
  rw [if_pos hown]
  simp only [hp, hg]
  rw [if_pos hbor]
  simp only [hi, checked_add_eq htot]
  rw [if_pos (Nat.le_of_lt hlt), if_pos hw]
  simp only [checked_add_eq hcu, checked_sub_eq hub]
  rw [if_neg (Nat.ne_of_lt hlt)]
  simp only [checked_sub_eq (Nat.le_of_lt hlt)]
  by_cases hri : interest < loan.principal + interest - amount
  · simp only [if_pos hri, checked_sub_eq (Nat.le_of_lt hri)]
    have hpp : loan.principal + interest - amount - interest ≤ loan.principal := by omega
    simp only [checked_sub_eq hpp]
  · simp only [if_neg hri, checked_sub_eq (Nat.zero_le loan.principal)]

/-- C3 witness: repaying 50 of a loan with principal 100 and accrued
interest 8 (total 108): remaining 58 > interest 8, so the principal
becomes 50 and the start date is reset, with collateral and `sol_balance`
untouched. -/
theorem repay_below_total_eq_witness :
    SolSavings.repay_loan
        ⟨⟨7, 0, 200, 1, [⟨1, 0, 100, 8, 50, 50, 7⟩]⟩, 50, 200, 0⟩ 7 1 50 31536000 =
      Except.ok ⟨⟨7, 0, 150, 1, [⟨1, 31536000, 50, 8, 50, 50, 7⟩]⟩, 50, 150, 50⟩ := by
  rw [repay_below_total_eq ⟨⟨7, 0, 200, 1, [⟨1, 0, 100, 8, 50, 50, 7⟩]⟩, 50, 200, 0⟩
    7 1 50 31536000 0 ⟨1, 0, 100, 8, 50, 50, 7⟩ 8 rfl (by decide) (by decide) rfl
    (by decide) (by decide) (by decide) (by decide) (by decide) (by decide)]
  rfl

/-- C10: `repay_loan` debits the ledger-recorded `usdc_balance` with a
checked subtraction, so a repayment of `amount ≤ total_owed` by the
authorized borrower fails with `ArithmeticOverflow` whenever `amount`
exceeds the recorded `usdc_balance` — even though every other check
passes.  In particular (witness below), full repayment of
`total_owed = principal + interest` with `interest > 0` fails when the
recorded balance is only the originally borrowed principal. -/
theorem repay_ledger_debit_overflow (st : SolSavings.ChainState)
    (caller loan_id amount : Nat) (now : Int) (i : Nat) (loan : SolSavings.Loan)
    (interest : Nat)
    (hown : caller = st.account.owner)
    (hp : SolSavings.position (fun l => l.id == loan_id) st.account.loans = some i)
    (hg : SolSavings.get_at st.account.loans i = some loan)
    (hbor : caller = loan.borrower)
    (hi : SolSavings.loan_interest loan now = some interest)
    (htot : loan.principal + interest < U64_MOD)
    (hle : amount ≤ loan.principal + interest)
    (hw : amount ≤ st.user_wallet_usdc)
    (hcu : st.contract_usdc + amount < U64_MOD)
    (hub : st.account.usdc_balance < amount) :
    SolSavings.repay_loan st caller loan_id amount now =
      Except.error SolSavings.ErrorCode.ArithmeticOverflow := by
  unfold SolSavings.repay_loan
  rw [if_pos hown]
  simp only [hp, hg]
  rw [if_pos hbor]
  simp only [hi, checked_add_eq htot]
  rw [if_pos hle, if_pos hw]
  simp only [checked_add_eq hcu,
    checked_sub_none (by omega : ¬ amount ≤ st.account.usdc_balance)]

/-- C10 witness: the loan owes 108 = principal 100 + interest 8, the
recorded `usdc_balance` is the originally borrowed 100, the wallet holds
200; full repayment of 108 fails with `ArithmeticOverflow`. -/
theorem repay_ledger_debit_overflow_witness :
    SolSavings.repay_loan
        ⟨⟨7, 0, 100, 1, [⟨1, 0, 100, 8, 50, 50, 7⟩]⟩, 50, 200, 0⟩ 7 1 108 31536000 =
      Except.error SolSavings.ErrorCode.ArithmeticOverflow :=
  repay_ledger_debit_overflow ⟨⟨7, 0, 100, 1, [⟨1, 0, 100, 8, 50, 50, 7⟩]⟩, 50, 200, 0⟩
    7 1 108 31536000 0 ⟨1, 0, 100, 8, 50, 50, 7⟩ 8 rfl (by decide) (by decide) rfl
    (by decide) (by decide) (by decide) (by decide) (by decide) (by decide)

/-- C7 counterexample: the single-loan variant accepts an overpayment.
The loan owes exactly its principal 100 (`apy = 0`, so `total_owed =
100`); a repayment of 150 > 100 by the authorized borrower succeeds —
moving the full 150 from the borrower and closing the loan — instead of
being rejected with `RepaymentAmountTooHigh` (an error that variant does
not even define). -/
theorem overpayment_accepted_cex :
    UsdcSol.repay_loan ⟨some ⟨7, 0, 100, 0, 10⟩, 10, 5, 200, 0⟩ 7 150 0 =
      Except.ok ⟨none, 0, 15, 50, 150⟩ ∧
    UsdcSol.usdc_interest 100 0 0 = some 0 :=
  ⟨rfl, by decide⟩

/-- C7 amended: the multi-loan variant does reject `amount > total_owed`
with `RepaymentAmountTooHigh` — as an error result, so no state change is
committed; the single-loan variant instead rejects `amount < total_owed`
with `InsufficientRepaymentAmount` and accepts any `amount ≥ total_owed`,
overpayments included (counterexample above). -/
theorem repay_above_total_amended :
    (∀ (st : SolSavings.ChainState) (caller loan_id amount : Nat) (now : Int)
       (i : Nat) (loan : SolSavings.Loan) (interest : Nat),
      caller = st.account.owner →
      SolSavings.position (fun l => l.id == loan_id) st.account.loans = some i →
      SolSavings.get_at st.account.loans i = some loan →
      caller = loan.borrower →
      SolSavings.loan_interest loan now = some interest →
      loan.principal + interest < U64_MOD →
      loan.principal + interest < amount →
      SolSavings.repay_loan st caller loan_id amount now =
        Except.error SolSavings.ErrorCode.RepaymentAmountTooHigh) ∧
    (∀ (st : UsdcSol.SolState) (ld : UsdcSol.LoanAccount) (caller amount : Nat)
       (now : Int) (elapsed interest : Nat),
      st.loan = some ld →
      ld.borrower = caller →
      UsdcSol.time_elapsed now ld.start_date = some elapsed →
      UsdcSol.usdc_interest ld.principal ld.apy elapsed = some interest →
      ld.principal + interest < U64_MOD →
      amount < ld.principal + interest →
      UsdcSol.repay_loan st caller amount now =
        Except.error UsdcSol.LoanErr.InsufficientRepaymentAmount) := by
  constructor
  · intro st caller loan_id amount now i loan interest hown hp hg hbor hi htot hgt
    unfold SolSavings.repay_loan
    rw [if_pos hown]
    simp only [hp, hg]
    rw [if_pos hbor]
    simp only [hi, checked_add_eq htot]
    rw [if_neg (by omega : ¬ amount ≤ loan.principal + interest)]
  · intro st ld caller amount now elapsed interest hld hbor he hi htot hlt
    unfold UsdcSol.repay_loan
    simp only [hld]
    rw [if_pos hbor]
    simp only [he, hi, checked_add_eq htot]
    rw [if_pos hlt]

/-- C7 amended, witness: the multi-loan variant rejects an overpayment of
150 against a total owed of 100 with `RepaymentAmountTooHigh`, and the
single-loan variant rejects an underpayment of 60 against a total owed of
100 with `InsufficientRepaymentAmount`. -/
theorem repay_above_total_amended_witness :
    SolSavings.repay_loan
        ⟨⟨7, 0, 200, 1, [⟨1, 0, 100, 0, 10, 20, 7⟩]⟩, 10, 200, 0⟩ 7 1 150 0 =
      Except.error SolSavings.ErrorCode.RepaymentAmountTooHigh ∧
    UsdcSol.repay_loan ⟨some ⟨7, 0, 100, 0, 10⟩, 10, 5, 60, 0⟩ 7 60 0 =
      Except.error UsdcSol.LoanErr.InsufficientRepaymentAmount :=
  ⟨repay_above_total_amended.1 ⟨⟨7, 0, 200, 1, [⟨1, 0, 100, 0, 10, 20, 7⟩]⟩, 10, 200, 0⟩
      7 1 150 0 0 ⟨1, 0, 100, 0, 10, 20, 7⟩ 0 rfl (by decide) (by decide) rfl
      (by decide) (by decide) (by decide),
   repay_above_total_amended.2 ⟨some ⟨7, 0, 100, 0, 10⟩, 10, 5, 60, 0⟩ ⟨7, 0, 100, 0, 10⟩
      7 60 0 0 0 rfl rfl (by decide) (by decide) (by decide) (by decide)⟩

/-- C1: within `u64`/`i64` arithmetic range, `liquidate_loan` fails with
`LoanNotUnderwater` exactly when the collateral value
`collateral * price / 100` is at least the total owed
`principal + accrued interest` — and an error result commits no state
change; whenever the collateral value is strictly below the total owed and
the liquidator can pay it (and the lamport bookkeeping fits), liquidation
succeeds: it moves exactly `total_owed` of the debt asset from the
liquidator to the program, moves the loan's entire collateral to the
liquidator, and removes the loan (the loan account is closed). -/
theorem liquidate_not_underwater_iff (st : UsdcSol.SolState) (ld : UsdcSol.LoanAccount)
    (now : Int) (price : Nat)
    (hld : st.loan = some ld)
    (h1 : ld.start_date ≤ now)
    (h2 : now - ld.start_date < (I64_HALF : Int))
    (h3 : ld.principal * ld.apy < U64_MOD)
    (h4 : ld.principal * ld.apy * (now - ld.start_date).toNat < U64_MOD)
    (h5 : ld.collateral * price < U64_MOD)
    (h6 : ld.principal +
        ld.principal * ld.apy * (now - ld.start_date).toNat / UsdcSol.INTEREST_DIVISOR
        < U64_MOD) :
    (UsdcSol.liquidate_loan st now price =
        Except.error UsdcSol.LoanErr.LoanNotUnderwater ↔
      ld.principal +
        ld.principal * ld.apy * (now - ld.start_date).toNat / UsdcSol.INTEREST_DIVISOR ≤
        ld.collateral * price / 100) ∧
    (∀ owed, owed = ld.principal +
        ld.principal * ld.apy * (now - ld.start_date).toNat / UsdcSol.INTEREST_DIVISOR →
      ld.collateral * price / 100 < owed →
      owed ≤ st.caller_usdc →
      st.program_usdc + owed < U64_MOD →
      ld.collateral ≤ st.loan_lamports →
      st.caller_lamports + ld.collateral < U64_MOD →
      UsdcSol.liquidate_loan st now price =
        Except.ok { loan := none,
                    loan_lamports := st.loan_lamports - ld.collateral,
                    caller_lamports := st.caller_lamports + ld.collateral,
                    caller_usdc := st.caller_usdc - owed,
                    program_usdc := st.program_usdc + owed }) := by
  have hIU : (I64_HALF : Int) < (U64_MOD : Int) := by norm_num [I64_HALF, U64_MOD]
  have hel : UsdcSol.time_elapsed now ld.start_date =
      some ((now - ld.start_date).toNat) := by
    unfold UsdcSol.time_elapsed
    rw [if_pos ⟨by omega, h2⟩, i64_as_u64_of_nonneg (by omega) (by omega)]
  have hint : UsdcSol.usdc_interest ld.principal ld.apy ((now - ld.start_date).toNat) =
      some (ld.principal * ld.apy * (now - ld.start_date).toNat /
        UsdcSol.INTEREST_DIVISOR) := by
    unfold UsdcSol.usdc_interest
    rw [checked_mul_eq h3, Option.some_bind, checked_mul_eq h4, Option.some_bind]
  constructor
  · unfold UsdcSol.liquidate_loan
    simp only [hld, hel, hint, checked_add_eq h6, checked_mul_eq h5]
    by_cases hcv : ld.principal +
        ld.principal * ld.apy * (now - ld.start_date).toNat / UsdcSol.INTEREST_DIVISOR ≤
        ld.collateral * price / 100
    · rw [if_pos hcv]
      simp [hcv]
    · rw [if_neg hcv]
      constructor
      · intro h
        exfalso
        by_cases ha : st.caller_usdc ≥ ld.principal +
            ld.principal * ld.apy * (now - ld.start_date).toNat / UsdcSol.INTEREST_DIVISOR
        · rw [if_pos ha] at h
          cases hpu : checked_add st.program_usdc (ld.principal +
              ld.principal * ld.apy * (now - ld.start_date).toNat /
                UsdcSol.INTEREST_DIVISOR) with
          | none => simp [hpu] at h
          | some pu =>
            simp only [hpu] at h
            cases hll : checked_sub st.loan_lamports ld.collateral with
            | none => simp [hll] at h
            | some ll =>
              simp only [hll] at h
              cases hcl : checked_add st.caller_lamports ld.collateral with
              | none => simp [hcl] at h
              | some cl => simp [hcl] at h
        · rw [if_neg ha] at h
          exact absurd h (by simp)
      · intro h
        exact absurd h hcv
  · intro owed howed hcv hpay hpu hll hcl
    subst howed
    unfold UsdcSol.liquidate_loan
    simp only [hld, hel, hint, checked_add_eq h6, checked_mul_eq h5]
    rw [if_neg (by omega), if_pos hpay]
    simp only [checked_add_eq hpu, checked_sub_eq hll, checked_add_eq hcl]

/-- C1 witness: a loan of principal 1000 (apy field 500) with collateral
100 at price 150 has collateral value 150 < total owed 1000 at `now = 0`,
so liquidation succeeds, transferring 1000 USDC from the liquidator and
the 100 lamports of collateral to the liquidator, and closing the loan. -/
theorem liquidate_not_underwater_iff_witness :
    UsdcSol.liquidate_loan ⟨some ⟨1, 0, 1000, 500, 100⟩, 100, 0, 1000, 0⟩ 0 150 =
      Except.ok ⟨none, 0, 100, 0, 1000⟩ :=
  (liquidate_not_underwater_iff ⟨some ⟨1, 0, 1000, 500, 100⟩, 100, 0, 1000, 0⟩
      ⟨1, 0, 1000, 500, 100⟩ 0 150 rfl (by decide) (by decide) (by decide) (by decide)
      (by decide) (by decide)).2 1000 (by decide) (by decide) (by decide) (by decide)
    (by decide) (by decide)

/-- C8: round trip.  A successful `deposit_sol_and_take_loan` immediately
followed — at the same timestamp, so elapsed time and interest are both
zero — by a repayment of exactly the loan's principal fully closes the
loan: exactly the collateral committed at origination is returned to the
free balance, the loan is removed, and the position ends with its
pre-origination `sol_balance` plus the deposited `sol_amount`, its
pre-origination `usdc_balance`, loans list, wallet and program balances
(`loan_count` stays incremented, as loan ids are never reused). -/
theorem originate_then_repay_round_trip (st : SolSavings.ChainState)
    (sol usdc ltv price : Nat) (now : Int)
    (hfresh : ∀ l ∈ st.account.loans, l.id ≠ st.account.loan_count + 1)
    (hcb : st.contract_usdc < U64_MOD) :
    ∀ st1, SolSavings.deposit_sol_and_take_loan st sol usdc ltv price now = .ok st1 →
      SolSavings.repay_loan st1 st.account.owner (st.account.loan_count + 1) usdc now =
        Except.ok { st with
          account := { st.account with
                       sol_balance := st.account.sol_balance + sol,
                       loan_count := st.account.loan_count + 1 },
          account_lamports := st.account_lamports + sol } := by
  intro st1 h
  obtain ⟨lr, apy, rc, hlen, hadd, htab, hrc, hge, hcu, hw, hlc, hub, rfl⟩ :=
    SolSavings.deposit_ok_cases st sol usdc ltv price now st1 h
  have hpos2 : SolSavings.position (fun l => l.id == st.account.loan_count + 1)
      (st.account.loans ++
        [{ id := st.account.loan_count + 1, start_date := now, principal := usdc,
           apy := apy, collateral := rc, ltv := ltv, borrower := st.account.owner }]) =
      some st.account.loans.length := by
    refine SolSavings.position_append_fresh _ _ _ (fun l hl => ?_) (by simp)
    simpa using hfresh l hl
  have hget2 := SolSavings.get_at_append_length st.account.loans
    { id := st.account.loan_count + 1, start_date := now, principal := usdc,
      apy := apy, collateral := rc, ltv := ltv, borrower := st.account.owner }
  have hrm2 := SolSavings.remove_at_append_length st.account.loans
    { id := st.account.loan_count + 1, start_date := now, principal := usdc,
      apy := apy, collateral := rc, ltv := ltv, borrower := st.account.owner }
  have hsub : i64_checked_sub now now = some 0 := by
    unfold i64_checked_sub
    rw [sub_self, if_pos]
    constructor
    · norm_num [I64_HALF]
    · norm_num [I64_HALF]
  have hint2 : SolSavings.loan_interest
      { id := st.account.loan_count + 1, start_date := now, principal := usdc,
        apy := apy, collateral := rc, ltv := ltv, borrower := st.account.owner } now =
      some 0 := by
    unfold SolSavings.loan_interest
    rw [hsub, Option.some_bind]
    have h0 : i64_as_u64 0 = 0 := by simp [i64_as_u64]
    rw [h0]
    norm_num [SolSavings.accrue_interest, checked_mul, checked_div, U64_MOD,
      SolSavings.SECONDS_IN_A_YEAR]
  unfold SolSavings.repay_loan
  simp only [hpos2, hget2, hint2, hrm2, if_true, eq_self_iff_true]
  simp only [checked_add_eq (show usdc + 0 < U64_MOD by omega)]
  rw [if_pos (show usdc ≤ usdc + 0 by omega)]
  rw [if_pos (show st.user_wallet_usdc + usdc ≥ usdc by omega)]
  simp only [checked_add_eq (show st.contract_usdc - usdc + usdc < U64_MOD by omega)]
  simp only [checked_sub_eq (show usdc ≤ st.account.usdc_balance + usdc by omega)]
  rw [if_pos (show usdc = usdc + 0 by omega)]
  simp only [checked_add_eq
    (show st.account.sol_balance + sol - rc + rc < U64_MOD by omega)]
  have g1 : st.account.sol_balance + sol - rc + rc = st.account.sol_balance + sol := by
    omega
  have g2 : st.account.usdc_balance + usdc - usdc = st.account.usdc_balance := by omega
  have g3 : st.user_wallet_usdc + usdc - usdc = st.user_wallet_usdc := by omega
  have g4 : st.contract_usdc - usdc + usdc = st.contract_usdc := by omega
  rw [g1, g2, g3, g4]

/-- C8 witness: on a fresh position, deposit 1000 lamports and borrow
1000 (LTV 50, price 20000, collateral 1000), then repay 1000 at the same
timestamp: the collateral returns to the free balance (1000), the loan is
gone, and every balance is back to its pre-origination value plus the
deposit. -/
theorem originate_then_repay_round_trip_witness :
    SolSavings.repay_loan
        ⟨⟨7, 0, 1000, 1, [⟨1, 0, 1000, 8, 1000, 50, 7⟩]⟩, 1000, 1000, 999000⟩ 7 1 1000 0 =
      Except.ok ⟨⟨7, 1000, 0, 1, []⟩, 1000, 0, 1000000⟩ :=
  originate_then_repay_round_trip ⟨⟨7, 0, 0, 0, []⟩, 0, 0, 1000000⟩ 1000 1000 50 20000 0
    (by decide) (by decide)
    ⟨⟨7, 0, 1000, 1, [⟨1, 0, 1000, 8, 1000, 50, 7⟩]⟩, 1000, 1000, 999000⟩ rfl
